import Mathlib

/-!
Verification development for the healthbot repository.

The repository source under scrutiny consists of the React application shell
(`src/App.tsx`, holding the route guards), the nginx reverse-proxy
configuration, the backend Dockerfile and the Python requirements list.
The Chat Session Orchestrator core (Context Window Manager, Generation
Client, Response Cache, Session Orchestrator, Report Synthesizer) described
by the specification is not among the available source files; those
components are modelled here directly from the specification's words, each
such definition carrying a doc comment that says so.
-/

namespace HealthBot

/-! ## Route guards (from src/src/App.tsx) -/

/-- Authentication state exposed by `useAuth()` in `App.tsx`:
the `isAuthenticated` and `loading` fields read by both guards. -/
structure AuthState where
  isAuthenticated : Bool
  loading : Bool
deriving DecidableEq

/-- What a route-guard component renders: the loading placeholder `div`,
its children, or a `<Navigate to=.../>` redirect. -/
inductive RenderOutcome where
  | loadingPlaceholder : RenderOutcome
  | children : RenderOutcome
  | navigate : String → RenderOutcome
deriving DecidableEq

/-- `ProtectedRoute` from `App.tsx` lines 77-89: while `loading` render the
placeholder; otherwise render children when authenticated, else
`<Navigate to="/login" />`. -/
def ProtectedRoute (a : AuthState) : RenderOutcome :=
  if a.loading then RenderOutcome.loadingPlaceholder
  else if a.isAuthenticated then RenderOutcome.children
  else RenderOutcome.navigate "/login"

/-- `PublicRoute` from `App.tsx` lines 92-104: while `loading` render the
placeholder; otherwise render children when NOT authenticated, else
`<Navigate to="/dashboard" />`. -/
def PublicRoute (a : AuthState) : RenderOutcome :=
  if a.loading then RenderOutcome.loadingPlaceholder
  else if !a.isAuthenticated then RenderOutcome.children
  else RenderOutcome.navigate "/dashboard"

/-! ## Reverse proxy (from src/unnamed/part_000, the nginx site config) -/

/-- The request data the nginx config consults: the URI and the variables
interpolated into the proxy headers. -/
structure RequestCtx where
  uri : String
  host : String
  remoteAddr : String
  forwardedFor : String
  scheme : String
deriving DecidableEq

/-- Outcome of routing one inbound HTTP request: either proxied to an
upstream with a list of set headers, or answered with a static file. -/
inductive HttpOutcome where
  | proxyPass : String → List (String × String) → HttpOutcome
  | serveFile : String → HttpOutcome
deriving DecidableEq

/-- The headers the `location /api` block sets before forwarding. -/
def apiProxyHeaders (r : RequestCtx) : List (String × String) :=
  [("Host", r.host), ("X-Real-IP", r.remoteAddr),
   ("X-Forwarded-For", r.forwardedFor), ("X-Forwarded-Proto", r.scheme)]

/-- `p` is an initial segment of `s`, character by character — nginx
prefix-location matching on URIs. -/
def charsLeadWith : List Char → List Char → Bool
  | [], _ => true
  | _ :: _, [] => false
  | c :: cs, d :: ds => if c = d then charsLeadWith cs ds else false

/-- URI `s` begins with the literal `p` (nginx `location p` prefix match). -/
def uriLeadsWith (p s : String) : Bool := charsLeadWith p.data s.data

/-- The nginx server block: `location /api` proxies any URI with the `/api`
prefix to `http://backend:8000` with four forwarding headers set (the longer
prefix wins over `location /`); `location /` answers every other request via
`try_files $uri /index.html`, i.e. the file at the URI when it exists and
`/index.html` otherwise. `fileExists` stands for the filesystem under the
configured root. -/
def nginxRoute (fileExists : String → Bool) (r : RequestCtx) : HttpOutcome :=
  if uriLeadsWith "/api" r.uri then
    HttpOutcome.proxyPass "http://backend:8000" (apiProxyHeaders r)
  else if fileExists r.uri then HttpOutcome.serveFile r.uri
  else HttpOutcome.serveFile "/index.html"

/-! ## Data model of the orchestrator core (spec §3)

The orchestrator core is not among the available source files; every
definition below is modelled from the specification. -/

/-- Modelled from the spec: message roles (spec §3, `Message`). -/
inductive Role where
  | user : Role
  | assistant : Role
  | system : Role
deriving DecidableEq

/-- Modelled from the spec: a `Message` — role, text content, timestamp;
immutable once created. Its token/character count is taken to be the
character count of its content (`msgSize`). -/
structure Message where
  role : Role
  content : String
  timestamp : Nat
deriving DecidableEq

/-- The token/character count of a message: its content's character count. -/
def msgSize (m : Message) : Nat := m.content.length

/-- Total token/character size of a list of messages. -/
def totalSize (ms : List Message) : Nat := (ms.map msgSize).sum

/-- Modelled from the spec: a `Session` — identifier, owning user, ordered
message history (oldest first). -/
structure Session where
  sessionId : Nat
  ownerId : Nat
  history : List Message
deriving DecidableEq

/-- Modelled from the spec: a `PromptPlan` — ordered subsequence of messages
selected to fit the context budget, plus a budget-exceeded flag (true when
truncation occurred). -/
structure PromptPlan where
  messages : List Message
  truncated : Bool
deriving DecidableEq

/-! ## Context Window Manager (spec §4.1) — not among the source files -/

/-- True for pinned system messages, which truncation never drops. -/
def isSystem (m : Message) : Bool :=
  match m.role with
  | Role.system => true
  | _ => false

/-- The pinned system messages of a history, in order. -/
def systemMsgs (h : List Message) : List Message := h.filter isSystem

/-- The non-system messages of a history, in order. -/
def nonSystemMsgs (h : List Message) : List Message :=
  h.filter (fun m => !isSystem m)

/-- Modelled from the spec: the backward walk of §4.1. Input is most-recent
first; messages are accumulated until adding the next would exceed the
remaining budget. -/
def takeRecentWithin : List Message → Nat → List Message
  | [], _ => []
  | m :: rest, b =>
    if msgSize m ≤ b then m :: takeRecentWithin rest (b - msgSize m)
    else []

/-- The clear truncation marker required by spec §4.1. -/
def truncMarker : String := "[truncated]"

/-- Truncate a message's content to the budget, appending the marker. -/
def truncateMsg (m : Message) (b : Nat) : Message :=
  { m with content := m.content.take b ++ truncMarker }

/-- Modelled from the spec: the single-message truncation fallback of §4.1 —
the most recent message (the triggering user message) with its content
truncated and marked, kept so the message count stays ≥ 1. -/
def fallbackPlan (s : Session) (budget : Nat) : PromptPlan :=
  match s.history.getLast? with
  | some m => { messages := [truncateMsg m budget], truncated := true }
  | none => { messages := [], truncated := false }

/-- Modelled from the spec (§4.1, Context Window Manager — the component
itself is not among the source files): `buildPrompt(session, budget)` walks
the history from most recent backward, accumulating non-system messages
until adding the next would exceed the budget left after the pinned system
messages (always included); when nothing fits within the budget — in
particular when the triggering user message alone exceeds it — the plan
falls back to exactly one truncated message. -/
def buildPrompt (s : Session) (budget : Nat) : PromptPlan :=
  let sys := systemMsgs s.history
  let rest := nonSystemMsgs s.history
  let picked := (takeRecentWithin rest.reverse (budget - totalSize sys)).reverse
  if totalSize sys ≤ budget then
    if picked = [] then fallbackPlan s budget
    else { messages := sys ++ picked,
           truncated := decide (picked.length < rest.length) }
  else fallbackPlan s budget

/-- A concrete pinned system message, used by concrete instantiations. -/
def demoSysMsg : Message := { role := Role.system, content := "be concise", timestamp := 0 }

/-- A concrete first user message. -/
def demoUserMsg1 : Message := { role := Role.user, content := "hi", timestamp := 1 }

/-- A concrete assistant reply. -/
def demoAsstMsg : Message := { role := Role.assistant, content := "hello", timestamp := 2 }

/-- A concrete triggering user message. -/
def demoUserMsg2 : Message := { role := Role.user, content := "how are you", timestamp := 3 }

/-- A concrete session with a pinned system message and three exchanges. -/
def demoSession : Session :=
  { sessionId := 1, ownerId := 7,
    history := [demoSysMsg, demoUserMsg1, demoAsstMsg, demoUserMsg2] }

/-! ## Report Synthesizer (spec §4.5) — not among the source files -/

/-- Modelled from the spec: the error a report request can fail with. -/
inductive ReportErr where
  | EmptySession : ReportErr
deriving DecidableEq

/-- Modelled from the spec: one report section — plain structured text plus
minimal layout hints (heading level, page-break hint). -/
structure ReportSection where
  heading : String
  headingLevel : Nat
  body : String
  pageBreakAfter : Bool
deriving DecidableEq

/-- Modelled from the spec: a `Report` — ordered sections derived from a
session snapshot. -/
structure Report where
  sections : List ReportSection
deriving DecidableEq

/-- Modelled from the spec: report template options — a title and whether an
extraction policy (highlights section) is supplied. -/
structure ReportOptions where
  title : String
  includeHighlights : Bool
deriving DecidableEq

/-- Plain-text label of a role, for transcript rendering. -/
def roleLabel : Role → String
  | Role.user => "user"
  | Role.assistant => "assistant"
  | Role.system => "system"

/-- Render one message as a transcript line. -/
def renderMessage (m : Message) : String :=
  roleLabel m.role ++ ": " ++ m.content

/-- The chronological-transcript section of a report. -/
def transcriptSection (snapshot : List Message) : ReportSection :=
  { heading := "Transcript", headingLevel := 1,
    body := String.intercalate "\n" (snapshot.map renderMessage),
    pageBreakAfter := true }

/-- The extracted-highlights section: the assistant messages only. -/
def highlightsSection (snapshot : List Message) : ReportSection :=
  { heading := "Highlights", headingLevel := 2,
    body := String.intercalate "\n"
      ((snapshot.filter (fun m => decide (m.role = Role.assistant))).map
        renderMessage),
    pageBreakAfter := false }

/-- Modelled from the spec (§4.5, Report Synthesizer — the component itself
is not among the source files): `synthesize(snapshot, options)` is a pure
transformation grouping the message sequence into sections per the
configured template, with no generation performed inline; it fails with
`EmptySession` when the snapshot has zero messages. -/
def synthesize (snapshot : List Message) (opts : ReportOptions) :
    Except ReportErr Report :=
  if snapshot = [] then Except.error ReportErr.EmptySession
  else Except.ok
    { sections :=
        if opts.includeHighlights then
          [transcriptSection snapshot, highlightsSection snapshot]
        else [transcriptSection snapshot] }

/-! ## Response Cache (spec §4.3) — not among the source files -/

/-- Modelled from the spec: a `GenerationResult` — text, token count,
finish reason. -/
structure GenResult where
  text : String
  tokenCount : Nat
  finishReason : String
deriving DecidableEq

/-- Modelled from the spec: the error taxonomy of §7 relevant to the
generation path. -/
inductive GenError where
  | BackendUnavailable : GenError
  | Timeout : GenError
  | ModelError : GenError
deriving DecidableEq

/-- Modelled from the spec: the cache key — model identifier, exact prompt
text and sampling parameters (temperature scaled to an integer, max
tokens). -/
structure CacheKey where
  model : String
  promptText : String
  temperatureScaled : Nat
  maxTokens : Nat
deriving DecidableEq

/-- Modelled from the spec: a `CacheEntry` — either an in-progress marker
recording the producer and the attached waiters (late joiners), or a
completed result. -/
inductive CacheEntry where
  | inProgress : Nat → List Nat → CacheEntry
  | completed : GenResult → CacheEntry
deriving DecidableEq

/-- The process-wide cache: an association of keys to entries. Per spec §5
all mutation of it is atomic with respect to concurrent key access, so a
concurrent execution is an arbitrary serialization of these atomic
operations. -/
abbrev CacheMap : Type := List (CacheKey × CacheEntry)

/-- Entry stored for a key, if any. -/
def lookupEntry : CacheMap → CacheKey → Option CacheEntry
  | [], _ => none
  | (k2, e) :: rest, k => if k2 = k then some e else lookupEntry rest k

/-- Store an entry for a key, replacing any previous one. -/
def setEntry : CacheMap → CacheKey → CacheEntry → CacheMap
  | [], k, e => [(k, e)]
  | (k2, e2) :: rest, k, e =>
    if k2 = k then (k, e) :: rest else (k2, e2) :: setEntry rest k e

/-- Evict a key from the cache. -/
def removeEntry : CacheMap → CacheKey → CacheMap
  | [], _ => []
  | (k2, e) :: rest, k =>
    if k2 = k then removeEntry rest k else (k2, e) :: removeEntry rest k

/-- What one `getOrCreate` caller is handed back. -/
inductive GetOutcome where
  | producer : GetOutcome
  | wait : Nat → GetOutcome
  | hit : GenResult → GetOutcome
deriving DecidableEq

/-- Modelled from the spec (§4.3, Response Cache — the component itself is
not among the source files): `getOrCreate(key)` atomically returns either
authorization to become the sole producer (first caller for a new key), a
handle to await the in-flight producer's outcome, or an existing completed
result. -/
def getOrCreate (c : CacheMap) (k : CacheKey) (caller : Nat) :
    CacheMap × GetOutcome :=
  match lookupEntry c k with
  | none => (setEntry c k (CacheEntry.inProgress caller []), GetOutcome.producer)
  | some (CacheEntry.inProgress p ws) =>
    (setEntry c k (CacheEntry.inProgress p (ws ++ [caller])), GetOutcome.wait p)
  | some (CacheEntry.completed r) => (c, GetOutcome.hit r)

/-- Modelled from the spec: the producer resolves the key with a completed
result; every attached waiter is released with that same result. -/
def completeEntry (c : CacheMap) (k : CacheKey) (r : GenResult) :
    CacheMap × List (Nat × GenResult) :=
  match lookupEntry c k with
  | some (CacheEntry.inProgress _ ws) =>
    (setEntry c k (CacheEntry.completed r), ws.map (fun w => (w, r)))
  | _ => (c, [])

/-- Modelled from the spec: the producer fails the key; every attached
waiter is released with that same error and the key is evicted (no negative
caching). -/
def failEntry (c : CacheMap) (k : CacheKey) (e : GenError) :
    CacheMap × List (Nat × GenError) :=
  match lookupEntry c k with
  | some (CacheEntry.inProgress _ ws) =>
    (removeEntry c k, ws.map (fun w => (w, e)))
  | _ => (c, [])

/-- Run a serialized batch of `getOrCreate` calls (one per caller, in the
serialization order the atomic cache imposes on the N concurrent callers),
collecting each caller's outcome. -/
def runGets (c : CacheMap) (k : CacheKey) : List Nat → CacheMap × List (Nat × GetOutcome)
  | [] => (c, [])
  | caller :: rest =>
    let step1 := getOrCreate c k caller
    let step2 := runGets step1.1 k rest
    (step2.1, (caller, step1.2) :: step2.2)

/-! ## Session Orchestrator (spec §4.4) — not among the source files -/

/-- Modelled from the spec: the session state machine's states (the
transient Closing state of a cancellation, which immediately settles back to
Idle, is folded into the transition). -/
inductive SessionState where
  | Idle : SessionState
  | Building : SessionState
  | Generating : SessionState
deriving DecidableEq

/-- The orchestrator's per-session state: the state-machine state, the
append-only history, and the text accumulated from the chunks relayed so
far in the current generation. -/
structure OrchState where
  sstate : SessionState
  history : List Message
  buffer : String
deriving DecidableEq

/-- Events driving one session's orchestrator: a submission, completion of
the prompt build, one streamed chunk, and stream termination (success or
error). -/
inductive OrchEvent where
  | submit : String → OrchEvent
  | buildDone : OrchEvent
  | chunk : String → OrchEvent
  | finishOk : OrchEvent
  | finishErr : GenError → OrchEvent
deriving DecidableEq

/-- What the orchestrator emits to the caller at each step: acceptance of a
submission, a `SessionBusy` rejection, one relayed chunk, a successful final
marker, or an explicit error marker terminating the stream. -/
inductive OrchOutput where
  | accepted : OrchOutput
  | busy : OrchOutput
  | relayed : String → OrchOutput
  | finalOk : String → OrchOutput
  | errored : GenError → OrchOutput
deriving DecidableEq

/-- The user message appended when a submission is accepted. -/
def userMsg (t : String) : Message :=
  { role := Role.user, content := t, timestamp := 0 }

/-- The assistant message appended when a generation completes. -/
def assistantMsg (t : String) : Message :=
  { role := Role.assistant, content := t, timestamp := 0 }

/-- Plain-text name of a generation error, for the history marker. -/
def errName : GenError → String
  | GenError.BackendUnavailable => "BackendUnavailable"
  | GenError.Timeout => "Timeout"
  | GenError.ModelError => "ModelError"

/-- The failed-exchange marker recorded in history on a mid-stream error: an
error message (not an assistant message) preserving the delivered text. -/
def errorMsg (e : GenError) (delivered : String) : Message :=
  { role := Role.system,
    content := "[error: " ++ errName e ++ "] " ++ delivered, timestamp := 0 }

/-- Modelled from the spec (§4.4, Session Orchestrator — the component
itself is not among the source files): one atomic transition of a session's
state machine. Idle accepts a submission, appending exactly one user
message and entering Building; Building and Generating reject submissions
with `SessionBusy`, changing nothing; chunks are relayed in order and
accumulated; successful termination appends exactly one assistant message
and returns to Idle; an error terminates the stream with an explicit error
marker, records the failed exchange in history, and returns to Idle. -/
def orchStep (st : OrchState) (ev : OrchEvent) : OrchState × List OrchOutput :=
  match st.sstate, ev with
  | SessionState.Idle, OrchEvent.submit t =>
    ({ sstate := SessionState.Building,
       history := st.history ++ [userMsg t], buffer := "" },
     [OrchOutput.accepted])
  | SessionState.Building, OrchEvent.submit _ => (st, [OrchOutput.busy])
  | SessionState.Generating, OrchEvent.submit _ => (st, [OrchOutput.busy])
  | SessionState.Building, OrchEvent.buildDone =>
    ({ st with sstate := SessionState.Generating }, [])
  | SessionState.Generating, OrchEvent.chunk c =>
    ({ st with buffer := st.buffer ++ c }, [OrchOutput.relayed c])
  | SessionState.Generating, OrchEvent.finishOk =>
    ({ sstate := SessionState.Idle,
       history := st.history ++ [assistantMsg st.buffer], buffer := "" },
     [OrchOutput.finalOk st.buffer])
  | SessionState.Generating, OrchEvent.finishErr e =>
    ({ sstate := SessionState.Idle,
       history := st.history ++ [errorMsg e st.buffer], buffer := "" },
     [OrchOutput.errored e])
  | _, _ => (st, [])

/-- Run a sequence of events through one session's orchestrator, collecting
the outputs emitted to the caller in order. -/
def orchRun (st : OrchState) : List OrchEvent → OrchState × List OrchOutput
  | [] => (st, [])
  | ev :: evs =>
    let step1 := orchStep st ev
    let step2 := orchRun step1.1 evs
    (step2.1, step1.2 ++ step2.2)

/-- The full text assembled from a list of streamed chunks, in generation
order. -/
def concatChunks : List String → String
  | [] => ""
  | c :: rest => c ++ concatChunks rest

/-- A concrete cache key for concrete instantiations. -/
def demoKey : CacheKey :=
  { model := "llama3", promptText := "user: hi", temperatureScaled := 70,
    maxTokens := 256 }

/-- A concrete completed generation result. -/
def demoResult : GenResult :=
  { text := "hello there", tokenCount := 3, finishReason := "stop" }

/-! ## Generation Client retry policy (spec §4.2, §7) — not among the
source files -/

/-- Modelled from the spec (§9, retry/backoff as a pure policy function):
the delay before retry number `attempt`, with the base delay doubling each
attempt. -/
def backoffDelay (base attempt : Nat) : Nat := base * 2 ^ attempt

/-- Modelled from the spec (§4.2, Generation Client — the component itself
is not among the source files): attempt the backend up to `fuel` times
starting at attempt number `attempt`; `reach i` is the backend's response
on attempt `i` (`none` when the endpoint is unreachable). Returns the
outcome, the number of attempts made, and the backoff delays slept between
attempts. -/
def retryFrom (reach : Nat → Option GenResult) (base attempt fuel : Nat) :
    Except GenError GenResult × Nat × List Nat :=
  match fuel with
  | 0 => (Except.error GenError.BackendUnavailable, 0, [])
  | f + 1 =>
    match reach attempt with
    | some r => (Except.ok r, 1, [])
    | none =>
      match f with
      | 0 => (Except.error GenError.BackendUnavailable, 1, [])
      | _ + 1 =>
        let res := retryFrom reach base (attempt + 1) f
        (res.1, res.2.1 + 1, backoffDelay base attempt :: res.2.2)

/-- Modelled from the spec: the bounded retry loop of the Generation
Client — 3 attempts with exponential backoff, then `BackendUnavailable`. -/
def generateWithRetry (reach : Nat → Option GenResult) (base : Nat) :
    Except GenError GenResult × Nat × List Nat :=
  retryFrom reach base 0 3

end HealthBot

namespace HealthBot

/-! ## Theorems for the route guards and the reverse proxy -/

/-- C9: while `loading` both guards render the loading placeholder and never
redirect; once `loading` is false, `ProtectedRoute` renders its children iff
`isAuthenticated`, otherwise navigates to `/login`, and `PublicRoute`
renders its children iff not `isAuthenticated`, otherwise navigates to
`/dashboard`. -/
theorem routeGuards_spec (a : AuthState) :
    (a.loading = true →
      ProtectedRoute a = RenderOutcome.loadingPlaceholder ∧
      PublicRoute a = RenderOutcome.loadingPlaceholder) ∧
    (a.loading = false →
      (ProtectedRoute a = RenderOutcome.children ↔ a.isAuthenticated = true) ∧
      (a.isAuthenticated = false →
        ProtectedRoute a = RenderOutcome.navigate "/login") ∧
      (PublicRoute a = RenderOutcome.children ↔ a.isAuthenticated = false) ∧
      (a.isAuthenticated = true →
        PublicRoute a = RenderOutcome.navigate "/dashboard")) := by
  obtain ⟨auth, load⟩ := a
  cases auth <;> cases load <;>
    simp [ProtectedRoute, PublicRoute]

/-- Witness for C9: a concrete authenticated, non-loading state renders the
protected children and redirects the public route to the dashboard. -/
theorem routeGuards_spec_witness :
    ProtectedRoute ⟨true, false⟩ = RenderOutcome.children ∧
    PublicRoute ⟨true, false⟩ = RenderOutcome.navigate "/dashboard" := by
  have h := routeGuards_spec ⟨true, false⟩
  exact ⟨(h.2 rfl).1.mpr rfl, (h.2 rfl).2.2.2 rfl⟩

/-- C10: every request whose URI starts with `/api` is proxied to
`http://backend:8000` with the Host, X-Real-IP, X-Forwarded-For and
X-Forwarded-Proto headers set; every other request is answered with the file
at its URI when it exists and with `/index.html` otherwise; no other
outcome is possible. -/
theorem nginxRoute_spec (fileExists : String → Bool) (r : RequestCtx) :
    (uriLeadsWith "/api" r.uri = true →
      nginxRoute fileExists r =
        HttpOutcome.proxyPass "http://backend:8000" (apiProxyHeaders r)) ∧
    (uriLeadsWith "/api" r.uri = false → fileExists r.uri = true →
      nginxRoute fileExists r = HttpOutcome.serveFile r.uri) ∧
    (uriLeadsWith "/api" r.uri = false → fileExists r.uri = false →
      nginxRoute fileExists r = HttpOutcome.serveFile "/index.html") ∧
    (nginxRoute fileExists r =
        HttpOutcome.proxyPass "http://backend:8000" (apiProxyHeaders r) ∨
      nginxRoute fileExists r = HttpOutcome.serveFile r.uri ∨
      nginxRoute fileExists r = HttpOutcome.serveFile "/index.html") := by
  unfold nginxRoute
  rcases hp : uriLeadsWith "/api" r.uri <;>
    rcases hf : fileExists r.uri <;>
    simp [hp, hf]

/-- Witness for C10: `/api/users` is proxied, while `/chat` (absent from the
static root) falls back to `/index.html`. -/
theorem nginxRoute_spec_witness :
    nginxRoute (fun _ => false) ⟨"/api/users", "h", "ip", "ff", "http"⟩ =
      HttpOutcome.proxyPass "http://backend:8000"
        (apiProxyHeaders ⟨"/api/users", "h", "ip", "ff", "http"⟩) ∧
    nginxRoute (fun _ => false) ⟨"/chat", "h", "ip", "ff", "http"⟩ =
      HttpOutcome.serveFile "/index.html" := by
  refine ⟨?_, ?_⟩
  · exact (nginxRoute_spec (fun _ => false)
      ⟨"/api/users", "h", "ip", "ff", "http"⟩).1 (by decide)
  · exact (nginxRoute_spec (fun _ => false)
      ⟨"/chat", "h", "ip", "ff", "http"⟩).2.2.1 (by decide) rfl

/-! ## Context Window Manager lemmas and the C1 theorem -/

theorem totalSize_append (a b : List Message) :
    totalSize (a ++ b) = totalSize a + totalSize b := by
  simp [totalSize]

theorem totalSize_reverse (l : List Message) :
    totalSize l.reverse = totalSize l := by
  simp [totalSize, List.sum_reverse]

theorem takeRecentWithin_size_le (l : List Message) (b : Nat) :
    totalSize (takeRecentWithin l b) ≤ b := by
  induction l generalizing b with
  | nil => simp [takeRecentWithin, totalSize]
  | cons m rest ih =>
    by_cases h : msgSize m ≤ b
    · have hrec := ih (b - msgSize m)
      simp only [takeRecentWithin, if_pos h, totalSize, List.map_cons,
        List.sum_cons] at hrec ⊢
      omega
    · simp [takeRecentWithin, if_neg h, totalSize]

theorem takeRecentWithin_initial (l : List Message) (b : Nat) :
    ∃ t, l = takeRecentWithin l b ++ t := by
  induction l generalizing b with
  | nil => exact ⟨[], rfl⟩
  | cons m rest ih =>
    by_cases h : msgSize m ≤ b
    · obtain ⟨t, ht⟩ := ih (b - msgSize m)
      refine ⟨t, ?_⟩
      simp only [takeRecentWithin, if_pos h, List.cons_append]
      exact congrArg (fun x => m :: x) ht
    · exact ⟨m :: rest, by simp [takeRecentWithin, if_neg h]⟩

theorem takeRecentWithin_cons_of_gt (m : Message) (l : List Message) (b : Nat)
    (h : b < msgSize m) : takeRecentWithin (m :: l) b = [] := by
  simp only [takeRecentWithin]
  rw [if_neg (by omega)]

theorem takeRecentWithin_cons_of_le (m : Message) (l : List Message) (b : Nat)
    (h : msgSize m ≤ b) :
    takeRecentWithin (m :: l) b = m :: takeRecentWithin l (b - msgSize m) := by
  simp only [takeRecentWithin]
  rw [if_pos h]

theorem buildPrompt_eq_main (s : Session) (B : Nat)
    (h1 : totalSize (systemMsgs s.history) ≤ B)
    (h2 : (takeRecentWithin (nonSystemMsgs s.history).reverse
      (B - totalSize (systemMsgs s.history))).reverse ≠ []) :
    buildPrompt s B =
      { messages := systemMsgs s.history ++
          (takeRecentWithin (nonSystemMsgs s.history).reverse
            (B - totalSize (systemMsgs s.history))).reverse,
        truncated := decide
          ((takeRecentWithin (nonSystemMsgs s.history).reverse
            (B - totalSize (systemMsgs s.history))).reverse.length <
           (nonSystemMsgs s.history).length) } := by
  simp only [buildPrompt]
  rw [if_pos h1, if_neg h2]

theorem buildPrompt_eq_fallback (s : Session) (B : Nat)
    (h : ¬ totalSize (systemMsgs s.history) ≤ B ∨
      (takeRecentWithin (nonSystemMsgs s.history).reverse
        (B - totalSize (systemMsgs s.history))).reverse = []) :
    buildPrompt s B = fallbackPlan s B := by
  simp only [buildPrompt]
  rcases h with h | h
  · rw [if_neg h]
  · by_cases h1 : totalSize (systemMsgs s.history) ≤ B
    · rw [if_pos h1, if_pos h]
    · rw [if_neg h1]

theorem fallbackPlan_eq (s : Session) (B : Nat) (m : Message)
    (h : s.history.getLast? = some m) :
    fallbackPlan s B = { messages := [truncateMsg m B], truncated := true } := by
  simp [fallbackPlan, h]

theorem nonSystemMsgs_decomp (s : Session) (lastm : Message)
    (hlast : s.history.getLast? = some lastm)
    (hrole : lastm.role = Role.user) :
    nonSystemMsgs s.history = nonSystemMsgs s.history.dropLast ++ [lastm] := by
  have hdecomp : s.history.dropLast ++ [lastm] = s.history :=
    List.dropLast_append_getLast? lastm (Option.mem_def.mpr hlast)
  conv_lhs => rw [← hdecomp]
  simp [nonSystemMsgs, List.filter_append, isSystem, hrole]

/-- C1: for every session whose most recent message is the triggering user
message and every budget `B`, the prompt plan has at least one message; its
total size is at most `B` except in the single-message truncation fallback;
if the triggering user message alone exceeds `B`, the plan is exactly that
one truncated message; and otherwise the plan is the pinned system messages
plus a most-recent-first-kept suffix of the non-system messages (oldest
non-system messages dropped first), which contains the most recent user
message. -/
theorem buildPrompt_spec (s : Session) (B : Nat) (lastm : Message)
    (hlast : s.history.getLast? = some lastm)
    (hrole : lastm.role = Role.user) :
    1 ≤ (buildPrompt s B).messages.length ∧
    (totalSize (buildPrompt s B).messages ≤ B ∨
      ((buildPrompt s B).messages = [truncateMsg lastm B] ∧
        (buildPrompt s B).truncated = true)) ∧
    (B < msgSize lastm →
      (buildPrompt s B).messages = [truncateMsg lastm B]) ∧
    ((∃ dropped kept, nonSystemMsgs s.history = dropped ++ kept ∧
        (buildPrompt s B).messages = systemMsgs s.history ++ kept ∧
        lastm ∈ kept) ∨
      (buildPrompt s B).messages = [truncateMsg lastm B]) := by
  have hns := nonSystemMsgs_decomp s lastm hlast hrole
  have hrev : (nonSystemMsgs s.history).reverse =
      lastm :: (nonSystemMsgs s.history.dropLast).reverse := by
    rw [hns]; simp
  by_cases h1 : totalSize (systemMsgs s.history) ≤ B
  · by_cases h2 : (takeRecentWithin (nonSystemMsgs s.history).reverse
        (B - totalSize (systemMsgs s.history))).reverse = []
    · have heq : buildPrompt s B =
          { messages := [truncateMsg lastm B], truncated := true } := by
        rw [buildPrompt_eq_fallback s B (Or.inr h2), fallbackPlan_eq s B lastm hlast]
      refine ⟨by rw [heq]; simp, Or.inr (by rw [heq]; exact ⟨rfl, rfl⟩),
        fun _ => by rw [heq], Or.inr (by rw [heq])⟩
    · have heq := buildPrompt_eq_main s B h1 h2
      have hsize : totalSize (buildPrompt s B).messages ≤ B := by
        rw [heq]
        simp only [totalSize_append]
        have hle : totalSize (takeRecentWithin (nonSystemMsgs s.history).reverse
            (B - totalSize (systemMsgs s.history))).reverse ≤
            B - totalSize (systemMsgs s.history) := by
          rw [totalSize_reverse]
          exact takeRecentWithin_size_le _ _
        omega
      have hfit : msgSize lastm ≤ B - totalSize (systemMsgs s.history) := by
        by_contra hgt
        apply h2
        rw [hrev, takeRecentWithin_cons_of_gt lastm _ _ (by omega)]
        rfl
      have hmem : lastm ∈ (takeRecentWithin (nonSystemMsgs s.history).reverse
          (B - totalSize (systemMsgs s.history))).reverse := by
        rw [hrev, takeRecentWithin_cons_of_le lastm _ _ hfit]
        simp
      obtain ⟨t, ht⟩ := takeRecentWithin_initial
        (nonSystemMsgs s.history).reverse (B - totalSize (systemMsgs s.history))
      have hsplit : nonSystemMsgs s.history =
          t.reverse ++ (takeRecentWithin (nonSystemMsgs s.history).reverse
            (B - totalSize (systemMsgs s.history))).reverse := by
        have hcong := congrArg List.reverse ht
        simpa using hcong
      refine ⟨?_, Or.inl hsize, ?_, Or.inl ⟨t.reverse, _, hsplit, by rw [heq], hmem⟩⟩
      · rw [heq]
        simp only [List.length_append]
        have := List.length_pos.mpr h2
        omega
      · intro hgt
        exact absurd hfit (by omega)
  · have heq : buildPrompt s B =
        { messages := [truncateMsg lastm B], truncated := true } := by
      rw [buildPrompt_eq_fallback s B (Or.inl h1), fallbackPlan_eq s B lastm hlast]
    refine ⟨by rw [heq]; simp, Or.inr (by rw [heq]; exact ⟨rfl, rfl⟩),
      fun _ => by rw [heq], Or.inr (by rw [heq])⟩

/-- Witness for C1: the demo session, whose most recent message is the
triggering user message, under a budget of 100. -/
theorem buildPrompt_spec_witness :
    1 ≤ (buildPrompt demoSession 100).messages.length ∧
    (totalSize (buildPrompt demoSession 100).messages ≤ 100 ∨
      ((buildPrompt demoSession 100).messages = [truncateMsg demoUserMsg2 100] ∧
        (buildPrompt demoSession 100).truncated = true)) ∧
    (100 < msgSize demoUserMsg2 →
      (buildPrompt demoSession 100).messages = [truncateMsg demoUserMsg2 100]) ∧
    ((∃ dropped kept, nonSystemMsgs demoSession.history = dropped ++ kept ∧
        (buildPrompt demoSession 100).messages =
          systemMsgs demoSession.history ++ kept ∧
        demoUserMsg2 ∈ kept) ∨
      (buildPrompt demoSession 100).messages = [truncateMsg demoUserMsg2 100]) :=
  buildPrompt_spec demoSession 100 demoUserMsg2 rfl rfl

/-! ## Report Synthesizer: the C8 theorem -/

/-- C8: `synthesize(snapshot, options)` — a pure transformation by
construction, performing no generation — fails with `EmptySession` exactly
when the snapshot has zero messages, and returns a `Report` on every
non-empty snapshot. -/
theorem synthesize_spec (snapshot : List Message) (opts : ReportOptions) :
    (synthesize snapshot opts = Except.error ReportErr.EmptySession ↔
      snapshot = []) ∧
    (snapshot ≠ [] → ∃ r : Report, synthesize snapshot opts = Except.ok r) := by
  by_cases h : snapshot = []
  · subst h
    simp [synthesize]
  · constructor
    · simp [synthesize, h]
    · intro _
      refine ⟨{ sections :=
          if opts.includeHighlights then
            [transcriptSection snapshot, highlightsSection snapshot]
          else [transcriptSection snapshot] }, ?_⟩
      simp [synthesize, h]

/-- Witness for C8: a one-message snapshot yields a report. -/
theorem synthesize_spec_witness :
    ∃ r : Report,
      synthesize [demoUserMsg1] { title := "Visit", includeHighlights := false } =
        Except.ok r :=
  (synthesize_spec [demoUserMsg1]
    { title := "Visit", includeHighlights := false }).2 (by simp)

/-! ## Response Cache lemmas and the C2, C3 theorems -/

theorem lookupEntry_setEntry_same (c : CacheMap) (k : CacheKey) (e : CacheEntry) :
    lookupEntry (setEntry c k e) k = some e := by
  induction c with
  | nil => simp [setEntry, lookupEntry]
  | cons p rest ih =>
    obtain ⟨k2, e2⟩ := p
    by_cases h : k2 = k
    · simp [setEntry, h, lookupEntry]
    · simp [setEntry, h, lookupEntry, ih]

theorem lookupEntry_removeEntry_same (c : CacheMap) (k : CacheKey) :
    lookupEntry (removeEntry c k) k = none := by
  induction c with
  | nil => simp [removeEntry, lookupEntry]
  | cons p rest ih =>
    obtain ⟨k2, e2⟩ := p
    by_cases h : k2 = k
    · simp [removeEntry, h, ih]
    · simp [removeEntry, h, lookupEntry, ih]

theorem runGets_inProgress (k : CacheKey) (p : Nat) (cs : List Nat) :
    ∀ (c : CacheMap) (ws : List Nat),
    lookupEntry c k = some (CacheEntry.inProgress p ws) →
    lookupEntry (runGets c k cs).1 k =
      some (CacheEntry.inProgress p (ws ++ cs)) ∧
    (runGets c k cs).2 = cs.map (fun x => (x, GetOutcome.wait p)) := by
  induction cs with
  | nil =>
    intro c ws h
    simpa [runGets] using h
  | cons a rest ih =>
    intro c ws h
    have hstep : getOrCreate c k a =
        (setEntry c k (CacheEntry.inProgress p (ws ++ [a])), GetOutcome.wait p) := by
      simp [getOrCreate, h]
    have hnext := ih (setEntry c k (CacheEntry.inProgress p (ws ++ [a])))
      (ws ++ [a]) (lookupEntry_setEntry_same _ _ _)
    simp only [runGets, hstep]
    constructor
    · rw [hnext.1]
      simp
    · rw [hnext.2]
      simp

/-- C2: when N concurrent `getOrCreate(key)` callers are serialized by the
cache's atomic per-key mutation (spec §5), exactly the first becomes the
producer — exactly one generation is triggered — while every other caller
is handed a wait handle on that producer; the producer's completion
releases every waiter with the same result, stores the completed entry, and
any caller arriving afterwards observes that same completed result. -/
theorem getOrCreate_once_spec (c0 : CacheMap) (k : CacheKey) (first : Nat)
    (rest : List Nat) (r : GenResult) (late : Nat)
    (habsent : lookupEntry c0 k = none) :
    (runGets c0 k (first :: rest)).2 =
      (first, GetOutcome.producer) ::
        rest.map (fun x => (x, GetOutcome.wait first)) ∧
    ((runGets c0 k (first :: rest)).2.map Prod.snd).count GetOutcome.producer
      = 1 ∧
    (completeEntry (runGets c0 k (first :: rest)).1 k r).2 =
      rest.map (fun w => (w, r)) ∧
    lookupEntry (completeEntry (runGets c0 k (first :: rest)).1 k r).1 k =
      some (CacheEntry.completed r) ∧
    (getOrCreate (completeEntry (runGets c0 k (first :: rest)).1 k r).1 k
      late).2 = GetOutcome.hit r := by
  have hstep : getOrCreate c0 k first =
      (setEntry c0 k (CacheEntry.inProgress first []), GetOutcome.producer) := by
    simp [getOrCreate, habsent]
  have hrun := runGets_inProgress k first rest
    (setEntry c0 k (CacheEntry.inProgress first [])) []
    (lookupEntry_setEntry_same _ _ _)
  have hfin : lookupEntry (runGets c0 k (first :: rest)).1 k =
      some (CacheEntry.inProgress first rest) := by
    simp only [runGets, hstep]
    simpa using hrun.1
  have houts : (runGets c0 k (first :: rest)).2 =
      (first, GetOutcome.producer) ::
        rest.map (fun x => (x, GetOutcome.wait first)) := by
    simp only [runGets, hstep]
    rw [hrun.2]
  have hcomp : completeEntry (runGets c0 k (first :: rest)).1 k r =
      (setEntry (runGets c0 k (first :: rest)).1 k (CacheEntry.completed r),
       rest.map (fun w => (w, r))) := by
    simp [completeEntry, hfin]
  refine ⟨houts, ?_, by rw [hcomp], ?_, ?_⟩
  · rw [houts]
    simp only [List.map_cons, List.count_cons, List.map_map]
    have hz : ((rest.map (Prod.snd ∘ fun x => (x, GetOutcome.wait first))).count
        GetOutcome.producer) = 0 := by
      rw [List.count_eq_zero]
      intro hmem
      obtain ⟨x, _, hx⟩ := List.mem_map.mp hmem
      exact GetOutcome.noConfusion hx
    simp [hz]
  · rw [hcomp]
    exact lookupEntry_setEntry_same _ _ _
  · rw [hcomp]
    simp [getOrCreate, lookupEntry_setEntry_same]

/-- Witness for C2: three concurrent callers on a fresh key. -/
theorem getOrCreate_once_spec_witness :
    (runGets [] demoKey [0, 1, 2]).2 =
      (0, GetOutcome.producer) ::
        [1, 2].map (fun x => (x, GetOutcome.wait 0)) ∧
    ((runGets [] demoKey [0, 1, 2]).2.map Prod.snd).count GetOutcome.producer
      = 1 ∧
    (completeEntry (runGets [] demoKey [0, 1, 2]).1 demoKey demoResult).2 =
      [1, 2].map (fun w => (w, demoResult)) ∧
    lookupEntry (completeEntry (runGets [] demoKey [0, 1, 2]).1 demoKey
        demoResult).1 demoKey = some (CacheEntry.completed demoResult) ∧
    (getOrCreate (completeEntry (runGets [] demoKey [0, 1, 2]).1 demoKey
        demoResult).1 demoKey 9).2 = GetOutcome.hit demoResult :=
  getOrCreate_once_spec [] demoKey 0 [1, 2] demoResult 9 rfl

/-- C3: when the producer fails a key, every attached waiter is released
with that same error — none is left blocked — the key is evicted, and a
later caller is made producer again rather than being served the failure
(no negative caching). -/
theorem failEntry_spec (c : CacheMap) (k : CacheKey) (p : Nat) (ws : List Nat)
    (e : GenError) (late : Nat)
    (h : lookupEntry c k = some (CacheEntry.inProgress p ws)) :
    (failEntry c k e).2 = ws.map (fun w => (w, e)) ∧
    (∀ w ∈ ws, (w, e) ∈ (failEntry c k e).2) ∧
    lookupEntry (failEntry c k e).1 k = none ∧
    (getOrCreate (failEntry c k e).1 k late).2 = GetOutcome.producer := by
  have hfail : failEntry c k e = (removeEntry c k, ws.map (fun w => (w, e))) := by
    simp [failEntry, h]
  refine ⟨by rw [hfail], ?_, ?_, ?_⟩
  · intro w hw
    rw [hfail]
    exact List.mem_map_of_mem _ hw
  · rw [hfail]
    exact lookupEntry_removeEntry_same c k
  · rw [hfail]
    simp [getOrCreate, lookupEntry_removeEntry_same]

/-- Witness for C3: a producer with two waiters fails the key. -/
theorem failEntry_spec_witness :
    (failEntry [(demoKey, CacheEntry.inProgress 0 [1, 2])] demoKey
        GenError.Timeout).2 = [1, 2].map (fun w => (w, GenError.Timeout)) ∧
    (∀ w ∈ [1, 2],
      (w, GenError.Timeout) ∈
        (failEntry [(demoKey, CacheEntry.inProgress 0 [1, 2])] demoKey
          GenError.Timeout).2) ∧
    lookupEntry (failEntry [(demoKey, CacheEntry.inProgress 0 [1, 2])] demoKey
        GenError.Timeout).1 demoKey = none ∧
    (getOrCreate (failEntry [(demoKey, CacheEntry.inProgress 0 [1, 2])] demoKey
        GenError.Timeout).1 demoKey 9).2 = GetOutcome.producer :=
  failEntry_spec [(demoKey, CacheEntry.inProgress 0 [1, 2])] demoKey 0 [1, 2]
    GenError.Timeout 9 (by simp [lookupEntry])

/-! ## Session Orchestrator lemmas and the C4, C5, C6 theorems -/

theorem orchStep_history_extends (st : OrchState) (ev : OrchEvent) :
    ∃ t, (orchStep st ev).1.history = st.history ++ t := by
  obtain ⟨ss, hist, buf⟩ := st
  cases ss <;> cases ev <;>
    simp only [orchStep] <;>
    first
      | exact ⟨[], (List.append_nil _).symm⟩
      | exact ⟨_, rfl⟩

theorem orchRun_history_extends (evs : List OrchEvent) :
    ∀ st : OrchState, ∃ t, (orchRun st evs).1.history = st.history ++ t := by
  induction evs with
  | nil => exact fun st => ⟨[], by simp [orchRun]⟩
  | cons ev rest ih =>
    intro st
    obtain ⟨t1, h1⟩ := orchStep_history_extends st ev
    obtain ⟨t2, h2⟩ := ih (orchStep st ev).1
    refine ⟨t1 ++ t2, ?_⟩
    simp only [orchRun]
    rw [h2, h1, List.append_assoc]

theorem orchRun_append (a b : List OrchEvent) :
    ∀ st : OrchState,
    orchRun st (a ++ b) =
      ((orchRun (orchRun st a).1 b).1,
       (orchRun st a).2 ++ (orchRun (orchRun st a).1 b).2) := by
  induction a with
  | nil => intro st; simp [orchRun]
  | cons ev rest ih =>
    intro st
    show orchRun st (ev :: (rest ++ b)) = _
    simp only [orchRun]
    rw [ih]
    simp [List.append_assoc]

theorem orchRun_chunks (chunks : List String) :
    ∀ hist : List Message, ∀ buf : String,
    orchRun ⟨SessionState.Generating, hist, buf⟩
        (chunks.map OrchEvent.chunk) =
      (⟨SessionState.Generating, hist, buf ++ concatChunks chunks⟩,
       chunks.map OrchOutput.relayed) := by
  induction chunks with
  | nil => intro hist buf; simp [orchRun, concatChunks]
  | cons c rest ih =>
    intro hist buf
    simp only [List.map_cons, orchRun, orchStep, ih, concatChunks,
      List.cons_append, List.nil_append]
    rw [String.append_assoc]

/-- C4: along any event trace the history only grows — the history at an
earlier point is a prefix of the history at any later point, never
reordered or mutated — and a successful submission appends exactly one user
message followed by exactly one assistant message, in that order. -/
theorem history_append_only_spec (st : OrchState) (evs : List OrchEvent)
    (t : String) (chunks : List String)
    (hidle : st.sstate = SessionState.Idle) :
    (∃ tail, (orchRun st evs).1.history = st.history ++ tail) ∧
    (orchRun st ([OrchEvent.submit t, OrchEvent.buildDone] ++
        chunks.map OrchEvent.chunk ++ [OrchEvent.finishOk])).1.history =
      st.history ++ [userMsg t, assistantMsg (concatChunks chunks)] := by
  obtain ⟨ss, hist, buf⟩ := st
  subst hidle
  refine ⟨orchRun_history_extends evs _, ?_⟩
  rw [orchRun_append, orchRun_append]
  have h2 : orchRun (⟨SessionState.Idle, hist, buf⟩ : OrchState)
      [OrchEvent.submit t, OrchEvent.buildDone] =
      (⟨SessionState.Generating, hist ++ [userMsg t], ""⟩, [OrchOutput.accepted]) := by
    simp [orchRun, orchStep]
  rw [h2, orchRun_chunks chunks (hist ++ [userMsg t]) ""]
  simp [orchRun, orchStep]

/-- Witness for C4: a concrete idle session running one full successful
exchange with two chunks. -/
theorem history_append_only_spec_witness :
    (∃ tail,
      (orchRun ⟨SessionState.Idle, [], ""⟩ [OrchEvent.submit "hi"]).1.history =
        ([] : List Message) ++ tail) ∧
    (orchRun ⟨SessionState.Idle, [], ""⟩
        ([OrchEvent.submit "hi", OrchEvent.buildDone] ++
          ["hel", "lo"].map OrchEvent.chunk ++ [OrchEvent.finishOk])).1.history =
      ([] : List Message) ++
        [userMsg "hi", assistantMsg (concatChunks ["hel", "lo"])] :=
  history_append_only_spec ⟨SessionState.Idle, [], ""⟩ [OrchEvent.submit "hi"]
    "hi" ["hel", "lo"] rfl

/-- C5: when the backend errors after delivering some chunks, the caller
receives every delivered chunk, in order, followed by an explicit error
termination marker — not an ambiguous close — and the failed exchange is
recorded in history as an error marker preserving the delivered text, with
the session settled back to Idle. -/
theorem stream_error_spec (st : OrchState) (t : String) (chunks : List String)
    (e : GenError) (hidle : st.sstate = SessionState.Idle) :
    (orchRun st ([OrchEvent.submit t, OrchEvent.buildDone] ++
        chunks.map OrchEvent.chunk ++ [OrchEvent.finishErr e])).2 =
      [OrchOutput.accepted] ++ chunks.map OrchOutput.relayed ++
        [OrchOutput.errored e] ∧
    (orchRun st ([OrchEvent.submit t, OrchEvent.buildDone] ++
        chunks.map OrchEvent.chunk ++ [OrchEvent.finishErr e])).1.history =
      st.history ++ [userMsg t, errorMsg e (concatChunks chunks)] ∧
    (orchRun st ([OrchEvent.submit t, OrchEvent.buildDone] ++
        chunks.map OrchEvent.chunk ++ [OrchEvent.finishErr e])).1.sstate =
      SessionState.Idle := by
  obtain ⟨ss, hist, buf⟩ := st
  subst hidle
  rw [orchRun_append, orchRun_append]
  have h2 : orchRun (⟨SessionState.Idle, hist, buf⟩ : OrchState)
      [OrchEvent.submit t, OrchEvent.buildDone] =
      (⟨SessionState.Generating, hist ++ [userMsg t], ""⟩, [OrchOutput.accepted]) := by
    simp [orchRun, orchStep]
  rw [h2, orchRun_chunks chunks (hist ++ [userMsg t]) ""]
  simp [orchRun, orchStep]

/-- Witness for C5: scenario D — two chunks delivered, then a `ModelError`;
both chunks reach the caller before the explicit error termination, and the
history records the failed exchange. -/
theorem stream_error_spec_witness :
    (orchRun ⟨SessionState.Idle, [], ""⟩
        ([OrchEvent.submit "hi", OrchEvent.buildDone] ++
          ["chunk1", "chunk2"].map OrchEvent.chunk ++
          [OrchEvent.finishErr GenError.ModelError])).2 =
      [OrchOutput.accepted] ++ ["chunk1", "chunk2"].map OrchOutput.relayed ++
        [OrchOutput.errored GenError.ModelError] ∧
    (orchRun ⟨SessionState.Idle, [], ""⟩
        ([OrchEvent.submit "hi", OrchEvent.buildDone] ++
          ["chunk1", "chunk2"].map OrchEvent.chunk ++
          [OrchEvent.finishErr GenError.ModelError])).1.history =
      ([] : List Message) ++
        [userMsg "hi",
         errorMsg GenError.ModelError (concatChunks ["chunk1", "chunk2"])] ∧
    (orchRun ⟨SessionState.Idle, [], ""⟩
        ([OrchEvent.submit "hi", OrchEvent.buildDone] ++
          ["chunk1", "chunk2"].map OrchEvent.chunk ++
          [OrchEvent.finishErr GenError.ModelError])).1.sstate =
      SessionState.Idle :=
  stream_error_spec ⟨SessionState.Idle, [], ""⟩ "hi" ["chunk1", "chunk2"]
    GenError.ModelError rfl

/-- C6: a submission is rejected with `SessionBusy` exactly when the
session is Building or Generating; the rejection changes neither the state
nor the history; and of two submissions on one session the second is
rejected while the first is Generating. -/
theorem sessionBusy_spec (st : OrchState) (t t2 : String) :
    ((orchStep st (OrchEvent.submit t)).2 = [OrchOutput.busy] ↔
      (st.sstate = SessionState.Building ∨
       st.sstate = SessionState.Generating)) ∧
    ((st.sstate = SessionState.Building ∨
      st.sstate = SessionState.Generating) →
      orchStep st (OrchEvent.submit t) = (st, [OrchOutput.busy])) ∧
    (st.sstate = SessionState.Idle →
      (orchRun st [OrchEvent.submit t, OrchEvent.buildDone]).1.sstate =
        SessionState.Generating ∧
      orchStep (orchRun st [OrchEvent.submit t, OrchEvent.buildDone]).1
          (OrchEvent.submit t2) =
        ((orchRun st [OrchEvent.submit t, OrchEvent.buildDone]).1,
         [OrchOutput.busy])) := by
  obtain ⟨ss, hist, buf⟩ := st
  cases ss <;> simp [orchStep, orchRun]

/-- Witness for C6: a Generating session rejects a second submission
unchanged. -/
theorem sessionBusy_spec_witness :
    orchStep (⟨SessionState.Generating, [], ""⟩ : OrchState)
        (OrchEvent.submit "again") =
      ((⟨SessionState.Generating, [], ""⟩ : OrchState), [OrchOutput.busy]) :=
  (sessionBusy_spec ⟨SessionState.Generating, [], ""⟩ "again" "x").2.1
    (Or.inr rfl)

/-! ## Generation Client retry policy and the C7 theorem -/

/-- C7: with the backend unreachable on every attempt, the Generation
Client makes exactly 3 attempts with exponential backoff — the delay
doubling from the base each retry — and fails with `BackendUnavailable`;
the Orchestrator then records the failed exchange, returns the session to
Idle (not crashed), and surfaces the error to the caller. -/
theorem backend_unavailable_spec (reach : Nat → Option GenResult)
    (base : Nat) (st : OrchState) (t : String)
    (hun : ∀ i, reach i = none) (hidle : st.sstate = SessionState.Idle) :
    generateWithRetry reach base =
      (Except.error GenError.BackendUnavailable, 3,
       [backoffDelay base 0, backoffDelay base 1]) ∧
    (∀ i, backoffDelay base (i + 1) = 2 * backoffDelay base i) ∧
    (orchRun st [OrchEvent.submit t, OrchEvent.buildDone,
        OrchEvent.finishErr GenError.BackendUnavailable]).1.sstate =
      SessionState.Idle ∧
    (orchRun st [OrchEvent.submit t, OrchEvent.buildDone,
        OrchEvent.finishErr GenError.BackendUnavailable]).1.history =
      st.history ++ [userMsg t, errorMsg GenError.BackendUnavailable ""] ∧
    (orchRun st [OrchEvent.submit t, OrchEvent.buildDone,
        OrchEvent.finishErr GenError.BackendUnavailable]).2 =
      [OrchOutput.accepted, OrchOutput.errored GenError.BackendUnavailable] := by
  obtain ⟨ss, hist, buf⟩ := st
  subst hidle
  refine ⟨?_, ?_, ?_⟩
  · simp [generateWithRetry, retryFrom, hun]
  · intro i
    simp [backoffDelay, pow_succ]
    ring
  · simp [orchRun, orchStep]

/-- Witness for C7: base delay 100 against an always-unreachable backend,
driving a concrete idle session. -/
theorem backend_unavailable_spec_witness :
    generateWithRetry (fun _ => none) 100 =
      (Except.error GenError.BackendUnavailable, 3,
       [backoffDelay 100 0, backoffDelay 100 1]) ∧
    (∀ i, backoffDelay 100 (i + 1) = 2 * backoffDelay 100 i) ∧
    (orchRun ⟨SessionState.Idle, [], ""⟩ [OrchEvent.submit "hi",
        OrchEvent.buildDone,
        OrchEvent.finishErr GenError.BackendUnavailable]).1.sstate =
      SessionState.Idle ∧
    (orchRun ⟨SessionState.Idle, [], ""⟩ [OrchEvent.submit "hi",
        OrchEvent.buildDone,
        OrchEvent.finishErr GenError.BackendUnavailable]).1.history =
      ([] : List Message) ++
        [userMsg "hi", errorMsg GenError.BackendUnavailable ""] ∧
    (orchRun ⟨SessionState.Idle, [], ""⟩ [OrchEvent.submit "hi",
        OrchEvent.buildDone,
        OrchEvent.finishErr GenError.BackendUnavailable]).2 =
      [OrchOutput.accepted, OrchOutput.errored GenError.BackendUnavailable] :=
  backend_unavailable_spec (fun _ => none) 100 ⟨SessionState.Idle, [], ""⟩
    "hi" (fun _ => rfl) rfl

end HealthBot
